import Mathlib

/-!
Shallow embedding of the real-time chat relay in `src/chat/server.js`.

The server keeps two pieces of module-level state: `clients`, a JS `Map`
from client id to a connection record, and `messageHistory`, an array of
chat messages bounded to the last 100 entries.  Event handlers
(`wss.on('connection')`, `ws.on('message')`, `ws.on('close')`) mutate this
state and send envelopes over websockets.  We model the state explicitly,
model a JS `Map` as an insertion-ordered association list with unique-key
`set`/`get`/`delete` semantics, and model each handler as a pure function
from state (plus the nondeterministic inputs: random ids, timestamps) to
the new state together with the list of `(recipient clientId, envelope)`
pairs the handler sends.
-/

namespace ChatRelay

/-- The websocket handle: the only field the server reads is `readyState`
(compared against `WebSocket.OPEN` in `broadcast`). -/
structure Socket where
  readyState : Nat
  deriving DecidableEq, Repr

/-- The `WebSocket.OPEN` ready-state constant (value 1 in the ws library). -/
def OPEN : Nat := 1

/-- A registry value, as stored by `clients.set(clientId, { ws, id, username })`
(server.js lines 32-36). -/
structure Client where
  ws : Socket
  id : String
  username : String
  deriving DecidableEq, Repr

/-- A history entry, as built in `handleChatMessage` (server.js lines 88-94). -/
structure ChatMessage where
  id : String
  username : String
  text : String
  timestamp : String
  clientId : String
  deriving DecidableEq, Repr

/-- The envelopes the server sends (spec section 6 wire protocol); each
constructor carries exactly the payload fields `server.js` serializes. -/
inductive Envelope where
  | connection (clientId : String) (username : String)
      (messageHistory : List ChatMessage)
  | message (m : ChatMessage)
  | usernameChanged (oldUsername newUsername timestamp : String)
  | userLeft (username timestamp : String)
  deriving DecidableEq, Repr

/-- The module-level mutable state of server.js: `clients` (a JS Map,
insertion-ordered, unique keys) and `messageHistory`. -/
structure ServerState where
  clients : List (String × Client)
  messageHistory : List ChatMessage
  deriving DecidableEq, Repr

/-- `clients.get(k)`: first (only) binding of the key, if any. -/
def mapGet (l : List (String × Client)) (k : String) : Option Client :=
  (l.find? (fun p => p.1 = k)).map (·.2)

/-- `clients.set(k, v)`: replace in place if the key is bound, else append
(JS Map keeps a re-set key at its original position in iteration order). -/
def mapSet (l : List (String × Client)) (k : String) (v : Client) :
    List (String × Client) :=
  if l.any (fun p => p.1 = k) then
    l.map (fun p => if p.1 = k then (k, v) else p)
  else l ++ [(k, v)]

/-- `clients.delete(k)`: remove the binding of the key, if present. -/
def mapDelete (l : List (String × Client)) (k : String) :
    List (String × Client) :=
  l.filter (fun p => ¬ p.1 = k)

/-- In-place mutation of a fetched record (`client.username = newUsername`
mutates the object held by the Map). -/
def mapUpdate (l : List (String × Client)) (k : String)
    (f : Client → Client) : List (String × Client) :=
  l.map (fun p => if p.1 = k then (p.1, f p.2) else p)

/-- The output of one event handler: the new state and the envelopes sent,
tagged by the recipient client id. -/
abbrev Sends := List (String × Envelope)

/-- Embeds `broadcast(message, excludeClientId)` (server.js lines 129-137):
iterate the registry in order and send to every entry that is not the
excluded id and whose socket is `OPEN`. -/
def broadcast (st : ServerState) (msg : Envelope)
    (excludeClientId : Option String) : Sends :=
  st.clients.filterMap (fun p =>
    if excludeClientId ≠ some p.1 ∧ p.2.ws.readyState = OPEN then
      some (p.1, msg)
    else none)

/-- Embeds the `messageHistory.push` plus `slice(-100)` trimming of
`handleChatMessage` (server.js lines 96-102). -/
def push100 (hist : List ChatMessage) (m : ChatMessage) : List ChatMessage :=
  if (hist ++ [m]).length > 100 then
    (hist ++ [m]).drop ((hist ++ [m]).length - 100)
  else hist ++ [m]

/-- Embeds `handleChatMessage(clientId, message)` (server.js lines 84-109).
`newId` stands for the freshly drawn `Math.random()` message id and
`timestamp` for `new Date().toISOString()`. -/
def handleChatMessage (st : ServerState) (clientId : String)
    (text : String) (newId timestamp : String) : ServerState × Sends :=
  match mapGet st.clients clientId with
  | none => (st, [])
  | some client =>
    let chatMessage : ChatMessage :=
      { id := newId, username := client.username, text := text,
        timestamp := timestamp, clientId := clientId }
    let st' : ServerState :=
      { st with messageHistory := push100 st.messageHistory chatMessage }
    (st', broadcast st' (Envelope.message chatMessage) none)

/-- Embeds `handleUsernameChange(clientId, newUsername)` (server.js
lines 112-126). -/
def handleUsernameChange (st : ServerState) (clientId : String)
    (newUsername : String) (timestamp : String) : ServerState × Sends :=
  match mapGet st.clients clientId with
  | none => (st, [])
  | some client =>
    let clients' :=
      mapUpdate st.clients clientId
        (fun c => { c with username := newUsername })
    let st' : ServerState := { st with clients := clients' }
    (st', broadcast st'
      (Envelope.usernameChanged client.username newUsername timestamp) none)

/-- Embeds the `wss.on('connection')` accept handler (server.js
lines 27-44): register the client under the fresh id with the default
display name, then send it a single `connection` envelope carrying its id,
its username and the current history. -/
def handleConnection (st : ServerState) (clientId : String)
    (sock : Socket) : ServerState × Sends :=
  let username := "User" ++ clientId.take 4
  let clients' :=
    mapSet st.clients clientId
      { ws := sock, id := clientId, username := username }
  let st' : ServerState := { st with clients := clients' }
  (st', [(clientId, Envelope.connection clientId username st'.messageHistory)])

/-- Embeds the `ws.on('close')` handler (server.js lines 65-75): delete the
entry, then broadcast a `userLeft` whose username is looked up from the
registry after the deletion (falling back to `'Unknown'`), excluding the
closed id. -/
def handleClose (st : ServerState) (clientId : String)
    (timestamp : String) : ServerState × Sends :=
  let st' : ServerState :=
    { st with clients := mapDelete st.clients clientId }
  let name := match mapGet st'.clients clientId with
    | some c => c.username
    | none => "Unknown"
  (st', broadcast st' (Envelope.userLeft name timestamp) (some clientId))

/-- An inbound websocket frame as seen by the `ws.on('message')` dispatcher:
a parsed envelope with `type` `'chat'` or `'username'`, a parsed envelope
with any other type tag, or an unparseable payload. -/
inductive Inbound where
  | chat (text : String)
  | username (username : String)
  | otherType
  | malformed
  deriving DecidableEq, Repr

/-- Embeds the `ws.on('message')` dispatcher (server.js lines 47-62):
switch on the type tag, ignoring unknown tags; a JSON parse failure is
caught and ignored. -/
def handleMessage (st : ServerState) (clientId : String) (msg : Inbound)
    (newId timestamp : String) : ServerState × Sends :=
  match msg with
  | Inbound.chat text => handleChatMessage st clientId text newId timestamp
  | Inbound.username u => handleUsernameChange st clientId u timestamp
  | Inbound.otherType => (st, [])
  | Inbound.malformed => (st, [])

/-- A discrete server event, with its nondeterministic inputs (fresh ids,
timestamps, the accepted socket) made explicit. -/
inductive Event where
  | connect (clientId : String) (sock : Socket)
  | inbound (clientId : String) (msg : Inbound) (newId timestamp : String)
  | close (clientId : String) (timestamp : String)
  deriving DecidableEq, Repr

/-- One dispatch step of the single-threaded event loop. -/
def step (st : ServerState) (e : Event) : ServerState × Sends :=
  match e with
  | Event.connect cid sock => handleConnection st cid sock
  | Event.inbound cid msg nid ts => handleMessage st cid msg nid ts
  | Event.close cid ts => handleClose st cid ts

/-- Run a sequence of events from a state, keeping only the state. -/
def run (st : ServerState) (es : List Event) : ServerState :=
  es.foldl (fun s e => (step s e).1) st

/-- The state at server start: empty registry, empty history. -/
def initialState : ServerState :=
  { clients := [], messageHistory := [] }

/-!
Client-id generation (server.js line 31):
`Math.random().toString(36).substr(2, 9)`.  `Math.random()` yields a
binary fraction `m / 2 ^ n` in `[0, 1)`; `toString(36)` prints `"0."`
followed by its base-36 fractional digits (the expansion of a binary
fraction in base 36 always terminates, since 2 divides 36, so the printed
digit string is exact and finite); `substr(2, 9)` keeps at most the first
9 characters after the `"0."`.
-/

/-- Base-36 fractional digits of `m / 2 ^ n`: repeatedly multiply by 36
and emit the integer part, stopping when the remainder is 0.  `fuel`
bounds the recursion; `n + 1` steps always exhaust the expansion because
after `d` digits the remainder is `36 ^ d * m mod 2 ^ n`, which vanishes
once `2 * d ≥ n`. -/
def base36FracDigits : Nat → Nat → Nat → List Nat
  | 0, _, _ => []
  | fuel + 1, m, n =>
    if m = 0 then []
    else 36 * m / 2 ^ n :: base36FracDigits fuel (36 * m % 2 ^ n) n

/-- Embeds the id generator `Math.random().toString(36).substr(2, 9)` for
the random double `m / 2 ^ n`: the first at most 9 base-36 fractional
digits. -/
def jsClientId (m n : Nat) : List Nat :=
  (base36FracDigits (n + 1) m n).take 9

/-- The digit characters `toString(36)` uses. -/
def base36Char (d : Nat) : Char :=
  "0123456789abcdefghijklmnopqrstuvwxyz".toList.getD d '?'

/-- The generated client id as the string `substr(2, 9)` returns. -/
def jsClientIdString (m n : Nat) : String :=
  String.mk ((jsClientId m n).map base36Char)

/-!
Concrete fixtures used by witnesses and counterexamples.
-/

/-- A socket in the `OPEN` ready state. -/
def sockOpen : Socket := { readyState := OPEN }

/-- A registered client named Alice under id `"aaa"`. -/
def clientA : Client := { ws := sockOpen, id := "aaa", username := "Alice" }

/-- A registered client named Bob under id `"bbb"`. -/
def clientB : Client := { ws := sockOpen, id := "bbb", username := "Bob" }

/-- A state with Alice and Bob registered and an empty history. -/
def stAB : ServerState :=
  { clients := [("aaa", clientA), ("bbb", clientB)], messageHistory := [] }

/-- A state with Alice registered, as left after Bob's close was handled. -/
def stA : ServerState :=
  { clients := [("aaa", clientA)], messageHistory := [] }

/-- A fixed history entry used to fill the buffer in fixtures. -/
def histMsg : ChatMessage :=
  { id := "h0", username := "Old", text := "old", timestamp := "t0",
    clientId := "aaa" }

/-- A state with Alice registered and the history buffer at capacity. -/
def stFull : ServerState :=
  { clients := [("aaa", clientA)],
    messageHistory := List.replicate 100 histMsg }

/-!
Supporting lemmas.
-/

/-- Appending through the 100-bound trim never leaves more than 100
entries, whatever the starting length. -/
theorem push100_length_le (hist : List ChatMessage) (m : ChatMessage) :
    (push100 hist m).length ≤ 100 := by
  unfold push100
  split
  · simp only [List.length_drop]
    omega
  · next h =>
    omega

/-- At capacity, the trim drops exactly the oldest entry and appends the
new one at the tail. -/
theorem push100_at_capacity (hist : List ChatMessage) (m : ChatMessage)
    (h : hist.length = 100) :
    push100 hist m = hist.drop 1 ++ [m] := by
  have hl : (hist ++ [m]).length = 101 := by simp [h]
  unfold push100
  rw [if_pos (by omega), hl]
  rw [show (101 - 100 : ℕ) = 1 from rfl]
  rw [List.drop_append_eq_append_drop]
  simp [h]

/-- Below capacity, the trim does nothing: the entry is appended. -/
theorem push100_below_capacity (hist : List ChatMessage) (m : ChatMessage)
    (h : hist.length < 100) :
    push100 hist m = hist ++ [m] := by
  unfold push100
  rw [if_neg]
  simp [List.length_append]
  omega

/-- Each event either leaves the history untouched or pushes one entry
through the 100-bound trim. -/
theorem step_messageHistory (st : ServerState) (e : Event) :
    (step st e).1.messageHistory = st.messageHistory ∨
      ∃ m, (step st e).1.messageHistory = push100 st.messageHistory m := by
  cases e with
  | connect cid sock => exact Or.inl rfl
  | close cid ts => exact Or.inl rfl
  | inbound cid msg nid ts =>
    cases msg with
    | chat text =>
      rcases hg : mapGet st.clients cid with _ | c
      · exact Or.inl (by simp [step, handleMessage, handleChatMessage, hg])
      · exact Or.inr ⟨ChatMessage.mk nid c.username text ts cid,
          by simp [step, handleMessage, handleChatMessage, hg]⟩
    | username u =>
      rcases hg : mapGet st.clients cid with _ | c
      · exact Or.inl (by simp [step, handleMessage, handleUsernameChange, hg])
      · exact Or.inl (by simp [step, handleMessage, handleUsernameChange, hg])
    | otherType => exact Or.inl rfl
    | malformed => exact Or.inl rfl

/-- An in-place record mutation is seen by a later get of the same key. -/
theorem mapGet_mapUpdate (l : List (String × Client)) (k : String)
    (f : Client → Client) :
    mapGet (mapUpdate l k f) k = (mapGet l k).map f := by
  induction l with
  | nil => rfl
  | cons a l ih =>
    have hcons : mapUpdate (a :: l) k f =
        (if a.1 = k then (a.1, f a.2) else a) :: mapUpdate l k f := rfl
    by_cases hk : a.1 = k
    · rw [hcons, if_pos hk]
      unfold mapGet
      rw [List.find?_cons_of_pos _ (by simp [hk]),
        List.find?_cons_of_pos _ (by simp [hk])]
      rfl
    · rw [hcons, if_neg hk]
      unfold mapGet
      rw [List.find?_cons_of_neg _ (by simp [hk]),
        List.find?_cons_of_neg _ (by simp [hk])]
      exact ih

/-- Deleting an unbound key leaves the registry unchanged. -/
theorem mapDelete_of_get_none (l : List (String × Client)) (k : String)
    (h : mapGet l k = none) : mapDelete l k = l := by
  have h' : ∀ p ∈ l, ¬ p.1 = k := by
    intro p hp
    unfold mapGet at h
    rw [Option.map_eq_none'] at h
    rw [List.find?_eq_none] at h
    simpa using h p hp
  unfold mapDelete
  apply List.filter_eq_self.mpr
  intro p hp
  simpa using h' p hp

/-- Every pair emitted by `broadcast` carries the broadcast payload, is not
the excluded id, and corresponds to a registered client whose socket is
`OPEN`. -/
theorem mem_broadcast (st : ServerState) (msg : Envelope)
    (excl : Option String) :
    ∀ q ∈ broadcast st msg excl,
      q.2 = msg ∧ excl ≠ some q.1 ∧
        ∃ c : Client, (q.1, c) ∈ st.clients ∧ c.ws.readyState = OPEN := by
  intro q hq
  simp only [broadcast, List.mem_filterMap] at hq
  rcases hq with ⟨a, ha, hfa⟩
  split_ifs at hfa with hc
  cases hfa
  exact ⟨rfl, hc.1, a.2, by simpa using ha, hc.2⟩

/-- With no exclusion and all registered sockets open, `broadcast` sends
the payload to every registry entry, in registry order. -/
theorem filterMap_broadcast_all_open (l : List (String × Client))
    (msg : Envelope) (hopen : ∀ p ∈ l, p.2.ws.readyState = OPEN) :
    (l.filterMap fun p =>
      if (none : Option String) ≠ some p.1 ∧ p.2.ws.readyState = OPEN then
        some (p.1, msg)
      else none) = l.map fun p => (p.1, msg) := by
  induction l with
  | nil => rfl
  | cons a l ih =>
    have ha := hopen a (List.mem_cons_self a l)
    rw [List.filterMap_cons, if_pos ⟨by simp, ha⟩, List.map_cons,
      ih (fun p hp => hopen p (List.mem_cons_of_mem a hp))]

/-- The `broadcast` wrapper of the previous lemma. -/
theorem broadcast_none_of_all_open (st : ServerState) (msg : Envelope)
    (hopen : ∀ p ∈ st.clients, p.2.ws.readyState = OPEN) :
    broadcast st msg none = st.clients.map fun p => (p.1, msg) :=
  filterMap_broadcast_all_open st.clients msg hopen

/-- In a registry with pairwise-distinct keys, a key determines its
record. -/
theorem keys_nodup_get_unique (l : List (String × Client))
    (hnd : (l.map Prod.fst).Nodup) {k : String} {a b : Client}
    (ha : (k, a) ∈ l) (hb : (k, b) ∈ l) : a = b := by
  induction l with
  | nil => exact absurd ha (List.not_mem_nil _)
  | cons x l ih =>
    rw [List.map_cons, List.nodup_cons] at hnd
    obtain ⟨hx, hnd⟩ := hnd
    rcases List.mem_cons.mp ha with ha1 | ha2 <;>
      rcases List.mem_cons.mp hb with hb1 | hb2
    · exact congrArg Prod.snd (ha1.trans hb1.symm)
    · exfalso
      apply hx
      rw [← ha1]
      exact List.mem_map.mpr ⟨(k, b), hb2, rfl⟩
    · exfalso
      apply hx
      rw [← hb1]
      exact List.mem_map.mpr ⟨(k, a), ha2, rfl⟩
    · exact ih hnd ha2 hb2

/-- Running any event sequence preserves the 100-entry bound. -/
theorem run_history_le (es : List Event) :
    ∀ st : ServerState, st.messageHistory.length ≤ 100 →
      (run st es).messageHistory.length ≤ 100 := by
  induction es with
  | nil => exact fun _ h => h
  | cons e es ih =>
    intro st h
    have h' : (step st e).1.messageHistory.length ≤ 100 := by
      rcases step_messageHistory st e with he | ⟨m, he⟩
      · rw [he]; exact h
      · rw [he]; exact push100_length_le _ _
    exact ih _ h'

/-- Every digit of the base-36 expansion of `m / 2 ^ n < 1` is below 36. -/
theorem base36FracDigits_lt (fuel : Nat) :
    ∀ m n : Nat, m < 2 ^ n → ∀ d ∈ base36FracDigits fuel m n, d < 36 := by
  induction fuel with
  | zero =>
    intro m n _ d hd
    simp [base36FracDigits] at hd
  | succ fuel ih =>
    intro m n hm d hd
    have h2 : 0 < 2 ^ n := pow_pos (by norm_num) n
    unfold base36FracDigits at hd
    by_cases h0 : m = 0
    · simp [h0] at hd
    · rw [if_neg h0] at hd
      rcases List.mem_cons.mp hd with rfl | hd'
      · rw [Nat.div_lt_iff_lt_mul h2]
        omega
      · exact ih (36 * m % 2 ^ n) n (Nat.mod_lt _ h2) d hd'

/-- The generated id has at most 9 digits. -/
theorem jsClientId_length_le (m n : Nat) : (jsClientId m n).length ≤ 9 := by
  simp [jsClientId, List.length_take]

/-- Every digit of the generated id is a base-36 digit. -/
theorem jsClientId_mem_lt (m n : Nat) (h : m < 2 ^ n) :
    ∀ d ∈ jsClientId m n, d < 36 :=
  fun d hd =>
    base36FracDigits_lt (n + 1) m n h d (List.mem_of_mem_take hd)

/-- Each base-36 digit character is alphanumeric. -/
theorem base36Char_isAlphanum : ∀ d < 36, (base36Char d).isAlphanum = true := by
  decide

/-!
Claim theorems.
-/

/-- C1: over every sequence of events the History Buffer never holds more
than 100 entries, and a chat message appended to a buffer already holding
100 entries evicts exactly the oldest entry, keeping the 2nd through
101st entries in insertion order. -/
theorem history_bound :
    (∀ es : List Event, (run initialState es).messageHistory.length ≤ 100) ∧
    (∀ (st : ServerState) (cid text nid ts : String) (c : Client),
      mapGet st.clients cid = some c →
      st.messageHistory.length = 100 →
      (handleChatMessage st cid text nid ts).1.messageHistory =
        st.messageHistory.drop 1 ++
          [ChatMessage.mk nid c.username text ts cid]) := by
  constructor
  · intro es
    exact run_history_le es initialState (by simp [initialState])
  · intro st cid text nid ts c hc hlen
    simp only [handleChatMessage, hc]
    exact push100_at_capacity _ _ hlen

/-- Witness for C1: with Alice registered and the buffer at its 100-entry
capacity, her new chat message evicts the oldest entry. -/
theorem history_bound_witness :
    (handleChatMessage stFull "aaa" "hi" "m1" "t1").1.messageHistory =
      stFull.messageHistory.drop 1 ++
        [ChatMessage.mk "m1" clientA.username "hi" "t1" "aaa"] :=
  history_bound.2 stFull "aaa" "hi" "m1" "t1" clientA (by decide)
    (by simp [stFull])

/-- C2: an accepted connection receives exactly one `connection` envelope,
carrying its fresh identity, the default display name derived from it, and
the History Buffer contents at accept time, which the accept leaves
unchanged. -/
theorem replay_fidelity (st : ServerState) (cid : String) (sock : Socket) :
    (handleConnection st cid sock).2 =
      [(cid, Envelope.connection cid ("User" ++ cid.take 4)
        st.messageHistory)] ∧
    (handleConnection st cid sock).1.messageHistory = st.messageHistory :=
  ⟨rfl, rfl⟩

/-- C3: a chat message from a registered sender whose registry peers all
have open sockets is broadcast to every registered connection, the sender
included, each receiving exactly one `message` envelope with the entry's
id and text. -/
theorem broadcast_inclusive (st : ServerState) (A text nid ts : String)
    (c : Client) (hA : mapGet st.clients A = some c)
    (hopen : ∀ p ∈ st.clients, p.2.ws.readyState = OPEN) :
    (handleChatMessage st A text nid ts).2 =
      st.clients.map fun p =>
        (p.1, Envelope.message (ChatMessage.mk nid c.username text ts A)) := by
  simp only [handleChatMessage, hA]
  exact broadcast_none_of_all_open _ _ hopen

/-- Witness for C3: Alice's message goes to both Alice and Bob. -/
theorem broadcast_inclusive_witness :
    (handleChatMessage stAB "aaa" "hi" "m1" "t1").2 =
      stAB.clients.map (fun p =>
        (p.1, Envelope.message
          (ChatMessage.mk "m1" clientA.username "hi" "t1" "aaa"))) :=
  broadcast_inclusive stAB "aaa" "hi" "m1" "t1" clientA (by decide) (by decide)

/-- C4: closing Bob's registered connection broadcasts a `userLeft` whose
username is `Unknown`, not Bob's display name, because the close handler
deletes the registry entry before looking the name up; Bob receives
nothing. -/
theorem userleft_unknown_on_close :
    handleClose stAB "bbb" "t" =
      ({ clients := [("aaa", clientA)], messageHistory := [] },
        [("aaa", Envelope.userLeft "Unknown" "t")]) ∧
    mapGet stAB.clients "bbb" = some clientB ∧
    clientB.username = "Bob" := by
  decide

/-- C5: after a rename, a subsequent chat message from the same connection
is recorded and broadcast under the new display name, while every History
Entry present before the rename is untouched. -/
theorem rename_visibility (st : ServerState)
    (A nn ts1 text nid ts2 : String) (c : Client)
    (h : mapGet st.clients A = some c) :
    (handleUsernameChange st A nn ts1).1.messageHistory =
      st.messageHistory ∧
    (handleChatMessage (handleUsernameChange st A nn ts1).1 A text nid
        ts2).1.messageHistory =
      push100 st.messageHistory (ChatMessage.mk nid nn text ts2 A) ∧
    ∀ q ∈ (handleChatMessage (handleUsernameChange st A nn ts1).1 A text
        nid ts2).2,
      q.2 = Envelope.message (ChatMessage.mk nid nn text ts2 A) := by
  have h1 : (handleUsernameChange st A nn ts1).1.messageHistory =
      st.messageHistory := by
    simp only [handleUsernameChange, h]
  have hget : mapGet (handleUsernameChange st A nn ts1).1.clients A =
      some { c with username := nn } := by
    simp only [handleUsernameChange, h]
    simp [mapGet_mapUpdate, h]
  refine ⟨h1, ?_, ?_⟩
  · simp only [handleChatMessage, hget, h1]
  · intro q hq
    simp only [handleChatMessage, hget] at hq
    exact (mem_broadcast _ _ _ q hq).1

/-- Witness for C5: Alice renames to Neo, then chats; the entry and all
broadcast envelopes carry Neo, and the prior (empty) history is kept. -/
theorem rename_visibility_witness :
    (handleUsernameChange stAB "aaa" "Neo" "t1").1.messageHistory =
      stAB.messageHistory ∧
    (handleChatMessage (handleUsernameChange stAB "aaa" "Neo" "t1").1 "aaa"
        "yo" "m2" "t2").1.messageHistory =
      push100 stAB.messageHistory (ChatMessage.mk "m2" "Neo" "yo" "t2" "aaa") ∧
    ∀ q ∈ (handleChatMessage (handleUsernameChange stAB "aaa" "Neo" "t1").1
        "aaa" "yo" "m2" "t2").2,
      q.2 = Envelope.message (ChatMessage.mk "m2" "Neo" "yo" "t2" "aaa") :=
  rename_visibility stAB "aaa" "Neo" "t1" "yo" "m2" "t2" clientA (by decide)

/-- C6: an inbound frame with an unrecognized type tag, or an unparseable
payload, changes no state and sends nothing. -/
theorem unknown_type_ignored (st : ServerState) (cid nid ts : String) :
    handleMessage st cid Inbound.otherType nid ts = (st, []) ∧
    handleMessage st cid Inbound.malformed nid ts = (st, []) :=
  ⟨rfl, rfl⟩

/-- C7 counterexample: after Bob's close was handled, a second close
trigger for Bob leaves the state unchanged but broadcasts a further
`userLeft` envelope to Alice, so it is not a no-op on the messages sent. -/
theorem close_retrigger_counterexample :
    (handleClose (handleClose stAB "bbb" "t1").1 "bbb" "t2").1 =
      (handleClose stAB "bbb" "t1").1 ∧
    (handleClose (handleClose stAB "bbb" "t1").1 "bbb" "t2").2 =
      [("aaa", Envelope.userLeft "Unknown" "t2")] ∧
    (handleClose (handleClose stAB "bbb" "t1").1 "bbb" "t2").2 ≠ [] := by
  decide

/-- C7 as amended: a close trigger for an identity absent from the
Registry leaves the server state unchanged, but still broadcasts one
`userLeft` envelope with username `Unknown` to the remaining open
connections. -/
theorem close_retrigger_state_noop (st : ServerState) (cid ts : String)
    (h : mapGet st.clients cid = none) :
    (handleClose st cid ts).1 = st ∧
    (handleClose st cid ts).2 =
      broadcast st (Envelope.userLeft "Unknown" ts) (some cid) := by
  have hd : mapDelete st.clients cid = st.clients :=
    mapDelete_of_get_none _ _ h
  constructor
  · show ServerState.mk (mapDelete st.clients cid) st.messageHistory = st
    rw [hd]
  · show broadcast (ServerState.mk (mapDelete st.clients cid)
        st.messageHistory) _ _ = _
    rw [hd]
    have hname : mapGet st.clients cid = none := h
    simp only [hname]

/-- Witness for the amended C7: re-closing the already-removed Bob keeps
the state and broadcasts the placeholder departure to Alice. -/
theorem close_retrigger_state_noop_witness :
    (handleClose stA "bbb" "t2").1 = stA ∧
    (handleClose stA "bbb" "t2").2 =
      broadcast stA (Envelope.userLeft "Unknown" "t2") (some "bbb") :=
  close_retrigger_state_noop stA "bbb" "t2" (by decide)

/-- C8: a chat or rename event whose sender id is not in the Registry
changes no state and sends nothing. -/
theorem unknown_sender_noop (st : ServerState)
    (cid text nid ts u : String) (h : mapGet st.clients cid = none) :
    handleChatMessage st cid text nid ts = (st, []) ∧
    handleUsernameChange st cid u ts = (st, []) := by
  constructor
  · simp only [handleChatMessage, h]
  · simp only [handleUsernameChange, h]

/-- Witness for C8: a chat and a rename from an unregistered id are both
no-ops. -/
theorem unknown_sender_noop_witness :
    handleChatMessage stA "zzz" "hi" "m9" "t9" = (stA, []) ∧
    handleUsernameChange stA "zzz" "Zed" "t9" = (stA, []) :=
  unknown_sender_noop stA "zzz" "hi" "m9" "t9" "Zed" (by decide)

/-- C9 counterexample: for the random double 1/2 (representable and
reachable as `2 ^ 52 / 2 ^ 53`), `toString(36)` prints `0.i` and
`substr(2, 9)` returns the 1-character id `i`, so the generated identity
does not always have exactly 9 characters. -/
theorem clientid_length_counterexample :
    jsClientIdString (2 ^ 52) 53 = "i" ∧
    ¬ (jsClientIdString (2 ^ 52) 53).length = 9 := by
  decide

/-- C9 as amended: every generated identity has at most 9 characters, all
drawn from the base-36 alphanumeric alphabet; fewer than 9 occur exactly
when the random double's base-36 expansion terminates early. -/
theorem clientid_at_most_nine (m n : Nat) (h : m < 2 ^ n) :
    (jsClientIdString m n).length ≤ 9 ∧
    ∀ ch ∈ (jsClientIdString m n).data, ch.isAlphanum = true := by
  constructor
  · have : (jsClientIdString m n).length =
        ((jsClientId m n).map base36Char).length := rfl
    rw [this, List.length_map]
    exact jsClientId_length_le m n
  · intro ch hch
    have hch' : ch ∈ (jsClientId m n).map base36Char := hch
    rcases List.mem_map.mp hch' with ⟨d, hd, rfl⟩
    exact base36Char_isAlphanum d (jsClientId_mem_lt m n h d hd)

/-- Witness for the amended C9: the id generated from the double 1/16 is
the 2-character alphanumeric string built from digits 2 and 9. -/
theorem clientid_at_most_nine_witness :
    (jsClientIdString 1 4).length ≤ 9 ∧
    ∀ ch ∈ (jsClientIdString 1 4).data, ch.isAlphanum = true :=
  clientid_at_most_nine 1 4 (by norm_num)

/-- C10: every send attempted by `broadcast` goes to a registered,
non-excluded connection whose socket is `OPEN`; with distinct registry
keys, a registered connection whose socket is not open receives no send
attempt at all. -/
theorem broadcast_only_open (st : ServerState) (msg : Envelope)
    (excl : Option String) :
    (∀ cid env, (cid, env) ∈ broadcast st msg excl →
      env = msg ∧ excl ≠ some cid ∧
        ∃ c : Client, (cid, c) ∈ st.clients ∧ c.ws.readyState = OPEN) ∧
    (∀ cid c, (st.clients.map Prod.fst).Nodup → (cid, c) ∈ st.clients →
      c.ws.readyState ≠ OPEN →
      ∀ env, (cid, env) ∉ broadcast st msg excl) := by
  constructor
  · intro cid env hmem
    exact mem_broadcast st msg excl (cid, env) hmem
  · intro cid c hnd hc hnot env hmem
    obtain ⟨-, -, c', hc', hopen⟩ := mem_broadcast st msg excl (cid, env) hmem
    rw [keys_nodup_get_unique st.clients hnd hc hc'] at hnot
    exact hnot hopen

/-- Witness for C10: a pair delivered by a concrete broadcast is addressed
to a registered open connection. -/
theorem broadcast_only_open_witness :
    Envelope.userLeft "x" "t" = Envelope.userLeft "x" "t" ∧
    (none : Option String) ≠ some "aaa" ∧
    ∃ c : Client, ("aaa", c) ∈ stAB.clients ∧ c.ws.readyState = OPEN :=
  (broadcast_only_open stAB (Envelope.userLeft "x" "t") none).1 "aaa"
    (Envelope.userLeft "x" "t") (by decide)

end ChatRelay
